import Mathlib

/-!
Verification development for the IoT security dashboard backend
(`backend/app/main.py`, `backend/app/auth.py`, `backend/app/models.py`,
`backend/app/schemas.py`).

The Python code is shallowly embedded: machine-level byte strings become
`List ℕ`, JSON documents become the `Json` inductive below, Python floats
become `ℚ` (every numeric literal and threshold appearing in the code is
exactly representable), fallible code returns `Except`/`Option`, and the
stateful connection manager / rate limiter become explicit state-passing
functions.
-/

namespace IotDash

/-! ## SHA-256 and HMAC-SHA256

The backend authenticates ingestion bodies with
`hmac.new(secret, body, hashlib.sha256).hexdigest()` (main.py line 209,
auth.py lines 43-45).  `hashlib.sha256` / `hmac` are the standard
FIPS 180-4 / RFC 2104 algorithms; they are implemented here executably
over byte lists (`List ℕ`, each entry a byte value).  32-bit words are
naturals reduced modulo `2^32`. -/

def M32 : ℕ := 4294967296

def add32 (a b : ℕ) : ℕ := (a + b) % M32

def rotr (n x : ℕ) : ℕ := ((x >>> n) ||| (x <<< (32 - n))) % M32

def not32 (x : ℕ) : ℕ := Nat.xor x 4294967295

def bigS0 (x : ℕ) : ℕ := Nat.xor (Nat.xor (rotr 2 x) (rotr 13 x)) (rotr 22 x)

def bigS1 (x : ℕ) : ℕ := Nat.xor (Nat.xor (rotr 6 x) (rotr 11 x)) (rotr 25 x)

def smallS0 (x : ℕ) : ℕ := Nat.xor (Nat.xor (rotr 7 x) (rotr 18 x)) (x >>> 3)

def smallS1 (x : ℕ) : ℕ := Nat.xor (Nat.xor (rotr 17 x) (rotr 19 x)) (x >>> 10)

def chF (x y z : ℕ) : ℕ := Nat.xor (Nat.land x y) (Nat.land (not32 x) z)

def majF (x y z : ℕ) : ℕ := Nat.xor (Nat.xor (Nat.land x y) (Nat.land x z)) (Nat.land y z)

/-- The 64 SHA-256 round constants (FIPS 180-4 §4.2.2), in decimal. -/
def shaK : List ℕ :=
  [1116352408, 1899447441, 3049323471, 3921009573, 961987163, 1508970993,
   2453635748, 2870763221, 3624381080, 310598401, 607225278, 1426881987,
   1925078388, 2162078206, 2614888103, 3248222580, 3835390401, 4022224774,
   264347078, 604807628, 770255983, 1249150122, 1555081692, 1996064986,
   2554220882, 2821834349, 2952996808, 3210313671, 3336571891, 3584528711,
   113926993, 338241895, 666307205, 773529912, 1294757372, 1396182291,
   1695183700, 1986661051, 2177026350, 2456956037, 2730485921, 2820302411,
   3259730800, 3345764771, 3516065817, 3600352804, 4094571909, 275423344,
   430227734, 506948616, 659060556, 883997877, 958139571, 1322822218,
   1537002063, 1747873779, 1955562222, 2024104815, 2227730452, 2361852424,
   2428436474, 2756734187, 3204031479, 3329325298]

/-- The initial SHA-256 hash state (FIPS 180-4 §5.3.3), in decimal. -/
def shaH0 : List ℕ :=
  [1779033703, 3144134277, 1013904242, 2773480762,
   1359893119, 2600822924, 528734635, 1541459225]

/-- Big-endian 8-byte rendering of a message length in bits. -/
def lenBytes64 (n : ℕ) : List ℕ :=
  [(n >>> 56) % 256, (n >>> 48) % 256, (n >>> 40) % 256, (n >>> 32) % 256,
   (n >>> 24) % 256, (n >>> 16) % 256, (n >>> 8) % 256, n % 256]

/-- SHA-256 padding: append `0x80`, zero bytes to 56 mod 64, then the
bit length as 8 big-endian bytes. -/
def sha256Pad (msg : List ℕ) : List ℕ :=
  let len := msg.length
  let zeros := (120 - ((len + 1) % 64)) % 64
  msg ++ [128] ++ List.replicate zeros 0 ++ lenBytes64 (8 * len)

/-- Split a byte list into successive 64-byte blocks.  The first (fuel)
argument is instantiated with the list length, which bounds the number of
blocks, so the recursion is structural. -/
def toBlocksAux : ℕ → List ℕ → List (List ℕ)
  | 0, _ => []
  | _, [] => []
  | n + 1, l => l.take 64 :: toBlocksAux n (l.drop 64)

def toBlocks (l : List ℕ) : List (List ℕ) := toBlocksAux l.length l

/-- Big-endian 32-bit words from bytes, four at a time. -/
def toWords : List ℕ → List ℕ
  | b0 :: b1 :: b2 :: b3 :: rest =>
      (b0 * 16777216 + b1 * 65536 + b2 * 256 + b3) :: toWords rest
  | _ => []

/-- Message-schedule extension: append the given number of additional
words `W[i] = σ₁(W[i-2]) + W[i-7] + σ₀(W[i-15]) + W[i-16]`. -/
def extendW : List ℕ → ℕ → List ℕ
  | w, 0 => w
  | w, k + 1 =>
      let i := w.length
      let wi := add32 (add32 (smallS1 (w.getD (i - 2) 0)) (w.getD (i - 7) 0))
                      (add32 (smallS0 (w.getD (i - 15) 0)) (w.getD (i - 16) 0))
      extendW (w ++ [wi]) k

/-- The eight 32-bit working variables of the SHA-256 compression loop. -/
structure Hash8 where
  a : ℕ
  b : ℕ
  c : ℕ
  d : ℕ
  e : ℕ
  f : ℕ
  g : ℕ
  h : ℕ

def shaRound (s : Hash8) (kw : ℕ × ℕ) : Hash8 :=
  let t1 := add32 s.h (add32 (bigS1 s.e) (add32 (chF s.e s.f s.g) (add32 kw.1 kw.2)))
  let t2 := add32 (bigS0 s.a) (majF s.a s.b s.c)
  ⟨add32 t1 t2, s.a, s.b, s.c, add32 s.d t1, s.e, s.f, s.g⟩

/-- One SHA-256 block compression. -/
def compress (hs : List ℕ) (block : List ℕ) : List ℕ :=
  let ws := extendW (toWords block) 48
  let s0 : Hash8 := ⟨hs.getD 0 0, hs.getD 1 0, hs.getD 2 0, hs.getD 3 0,
                     hs.getD 4 0, hs.getD 5 0, hs.getD 6 0, hs.getD 7 0⟩
  let s := (shaK.zip ws).foldl shaRound s0
  [add32 (hs.getD 0 0) s.a, add32 (hs.getD 1 0) s.b, add32 (hs.getD 2 0) s.c,
   add32 (hs.getD 3 0) s.d, add32 (hs.getD 4 0) s.e, add32 (hs.getD 5 0) s.f,
   add32 (hs.getD 6 0) s.g, add32 (hs.getD 7 0) s.h]

/-- SHA-256 digest as eight 32-bit words. -/
def sha256Words (msg : List ℕ) : List ℕ :=
  (toBlocks (sha256Pad msg)).foldl compress shaH0

def wordBytes (w : ℕ) : List ℕ :=
  [(w >>> 24) % 256, (w >>> 16) % 256, (w >>> 8) % 256, w % 256]

/-- SHA-256 digest as 32 bytes. -/
def sha256Bytes (msg : List ℕ) : List ℕ :=
  ((sha256Words msg).map wordBytes).flatten

/-- Lowercase hex digit of `n % 16` (as produced by Python `hexdigest()`):
codepoint 48 + d for digits 0-9, codepoint 87 + d (so `a`-`f`) above. -/
def hexChar (n : ℕ) : Char :=
  Char.ofNat (if n % 16 < 10 then 48 + n % 16 else 87 + n % 16)

def wordHex (w : ℕ) : List Char :=
  [hexChar (w >>> 28), hexChar (w >>> 24), hexChar (w >>> 20), hexChar (w >>> 16),
   hexChar (w >>> 12), hexChar (w >>> 8), hexChar (w >>> 4), hexChar w]

/-- SHA-256 digest as a lowercase hexadecimal string (Python `hexdigest()`). -/
def sha256Hex (msg : List ℕ) : String :=
  ⟨((sha256Words msg).map wordHex).flatten⟩

/-- UTF-8 encoding of one character, as used by Python `str.encode()`. -/
def utf8Enc (c : Char) : List ℕ :=
  let n := c.toNat
  if n < 128 then [n]
  else if n < 2048 then [192 + n / 64, 128 + n % 64]
  else if n < 65536 then [224 + n / 4096, 128 + (n / 64) % 64, 128 + n % 64]
  else [240 + n / 262144, 128 + (n / 4096) % 64, 128 + (n / 64) % 64, 128 + n % 64]

/-- Python `s.encode()` (UTF-8 bytes of a string). -/
def strBytes (s : String) : List ℕ := s.data.flatMap utf8Enc

/-- HMAC-SHA256 (RFC 2104) of `msg` under `key`, rendered as a lowercase
hex string: `hmac.new(key, msg, hashlib.sha256).hexdigest()`. -/
def hmacSha256Hex (key msg : List ℕ) : String :=
  let k0 := if 64 < key.length then sha256Bytes key else key
  let kp := k0 ++ List.replicate (64 - k0.length) 0
  let ipad := kp.map (fun b => Nat.xor b 54)
  let opad := kp.map (fun b => Nat.xor b 92)
  sha256Hex (opad ++ sha256Bytes (ipad ++ msg))

/-! ## JSON documents

Python dicts/lists/values as produced by `json.loads` and manipulated by
the handlers.  Object fields are an association list (JSON object keys are
unique after parsing; lookup returns the first binding). -/

inductive Json where
  | null
  | bool (b : Bool)
  | num (q : ℚ)
  | str (s : String)
  | arr (xs : List Json)
  | obj (fields : List (String × Json))

/-- Python `d.get(k)` on a dict: `none` when the key is absent. -/
def lookupJ (fields : List (String × Json)) (k : String) : Option Json :=
  (fields.find? (fun p => p.1 == k)).map (fun p => p.2)

def allDigits (cs : List Char) : Bool := cs.all Char.isDigit

def natOfDigits (cs : List Char) : ℕ :=
  cs.foldl (fun acc c => 10 * acc + (c.toNat - 48)) 0

/-- A Python float value as observed by the anomaly comparisons: a finite
value (kept as an exact rational), a signed infinity, or NaN. -/
inductive PyNum where
  | fin (q : ℚ)
  | inf (neg : Bool)
  | nan
deriving DecidableEq

/-- The Python comparison `x < c` for a float `x` and a finite literal
`c`: NaN compares false against everything, `-∞ < c`, `¬ (+∞ < c)`. -/
def pyLt : PyNum → ℚ → Bool
  | .fin q, c => decide (q < c)
  | .inf neg, _ => neg
  | .nan, _ => false

/-- The Python comparison `x > c` for a float `x` and a finite literal `c`. -/
def pyGt : PyNum → ℚ → Bool
  | .fin q, c => decide (c < q)
  | .inf neg, _ => !neg
  | .nan, _ => false

/-- The whitespace characters `float()` strips from a string argument. -/
def isWsChar (c : Char) : Bool :=
  c == ' ' || c == '\t' || c == '\n' || c == '\r' || c.toNat == 11 || c.toNat == 12

def trimWs (cs : List Char) : List Char :=
  ((cs.dropWhile isWsChar).reverse.dropWhile isWsChar).reverse

/-- PEP 515 underscore placement: every `_` must sit between two digits
(`prev` is the character preceding the list). -/
def usOk : Option Char → List Char → Bool
  | _, [] => true
  | prev, c :: rest =>
    if c = '_' then
      (match prev with | some p => p.isDigit | none => false) &&
      (match rest with | d :: _ => d.isDigit | [] => false) &&
      usOk (some c) rest
    else usOk (some c) rest

def stripUnderscores (cs : List Char) : List Char := cs.filter (fun c => c ≠ '_')

/-- Digits with at most one decimal point and at least one digit
(`30`, `1.5`, `5.`, `.5`). -/
def parseMantissa (cs : List Char) : Option ℚ :=
  match cs.splitOn '.' with
  | [a] => if a ≠ [] ∧ allDigits a then some (natOfDigits a) else none
  | [a, b] =>
      if (a ≠ [] ∨ b ≠ []) ∧ allDigits a ∧ allDigits b then
        some ((natOfDigits a : ℚ) + (natOfDigits b : ℚ) / 10 ^ b.length)
      else none
  | _ => none

/-- An exponent part: optional sign, then at least one digit.  Returns
the sign (`true` = negative) and the digit value. -/
def parseExp (cs : List Char) : Option (Bool × ℕ) :=
  match cs with
  | '+' :: r => if r ≠ [] ∧ allDigits r then some (false, natOfDigits r) else none
  | '-' :: r => if r ≠ [] ∧ allDigits r then some (true, natOfDigits r) else none
  | r => if r ≠ [] ∧ allDigits r then some (false, natOfDigits r) else none

/-- An unsigned decimal literal as accepted by `float()`: digit
underscores validated and removed, then a mantissa with an optional
case-insensitive `e`/`E` exponent. -/
def parseDecimal (cs : List Char) : Option ℚ :=
  if usOk none cs = true then
    let low := (stripUnderscores cs).map Char.toLower
    match low.splitOn 'e' with
    | [m] => parseMantissa m
    | [m, ex] =>
        match parseMantissa m, parseExp ex with
        | some q, some (eneg, n) => some (if eneg then q / 10 ^ n else q * 10 ^ n)
        | _, _ => none
    | _ => none
  else none

/-- Python `float(s)` on a string: surrounding whitespace stripped, then
an optional sign followed by either one of the case-insensitive keywords
`inf`/`infinity`/`nan` or a decimal literal (digits with at most one
point, optional `e`/`E` exponent, single underscores between digits).
Anything else fails (`ValueError`), modelled as `none`.  The numeric
value is kept as an exact rational (CPython rounds it to binary64);
digits and whitespace are ASCII (CPython additionally accepts other
Unicode digit and space code points). -/
def parsePyFloat (s : String) : Option PyNum :=
  let cs := trimWs s.data
  let signed : Bool × List Char :=
    match cs with
    | '-' :: r => (true, r)
    | '+' :: r => (false, r)
    | r => (false, r)
  let low := signed.2.map Char.toLower
  if low = "inf".data ∨ low = "infinity".data then some (PyNum.inf signed.1)
  else if low = "nan".data then some PyNum.nan
  else (parseDecimal signed.2).map (fun q => PyNum.fin (if signed.1 then -q else q))

/-- Python `float(x)` on a JSON value: numbers pass through, booleans
count as 1/0, strings parse per `parsePyFloat`, and every other value
raises (`TypeError`), modelled as `none`. -/
def pyFloat : Json → Option PyNum
  | .num q => some (.fin q)
  | .bool b => some (.fin (if b then 1 else 0))
  | .str s => parsePyFloat s
  | _ => none

/-! ## Credential and signature verification (`backend/app/auth.py`) -/

/-- Truthiness of an optional environment string (Python: `None` and the
empty string are falsy). -/
def envTruthy : Option String → Bool
  | none => false
  | some s => s ≠ ""

def isAsciiStr (s : String) : Bool := s.data.all (fun c => c.toNat < 128)

/-- Python `hmac.compare_digest(a, b)` on `str` arguments: constant-time
equality, but only defined for ASCII strings — a non-ASCII argument
raises `TypeError`, modelled as `Except.error`. -/
def compareDigest (a b : String) : Except Unit Bool :=
  if isAsciiStr a && isAsciiStr b then Except.ok (a == b) else Except.error ()

inductive AuthErr where
  /-- HTTP 500: `HMAC_SECRET not configured on server`. -/
  | serverMisconfigured
  /-- HTTP 401: `Missing X-Signature header`. -/
  | missingSignature
  /-- HTTP 401: `Invalid HMAC signature`. -/
  | invalidSignature
  /-- An uncaught `TypeError` escaping the handler (surfaces as HTTP 500). -/
  | uncaughtTypeError
deriving DecidableEq

/-- The standalone dependency `verify_hmac` of auth.py (lines 31-51):
fails closed with HTTP 500 when no HMAC secret is configured, 401 when the
signature header is absent or does not match. -/
def verify_hmac (secret : Option String) (signature : Option String) (body : List ℕ) :
    Except AuthErr Unit :=
  match secret with
  | none => Except.error AuthErr.serverMisconfigured
  | some s =>
    if s = "" then Except.error AuthErr.serverMisconfigured
    else
      match signature with
      | none => Except.error AuthErr.missingSignature
      | some sig =>
        if sig = "" then Except.error AuthErr.missingSignature
        else
          match compareDigest (hmacSha256Hex (strBytes s) body) sig with
          | Except.error _ => Except.error AuthErr.uncaughtTypeError
          | Except.ok true => Except.ok ()
          | Except.ok false => Except.error AuthErr.invalidSignature

/-! ## The `/ingest` pipeline (`backend/app/main.py`, `ingest_event`) -/

inductive IngErr where
  /-- HTTP 429: `Rate limit exceeded`. -/
  | rateLimited
  /-- HTTP 401: `Invalid HMAC signature` (inline check, main.py line 211). -/
  | invalidSignatureHdr
  /-- HTTP 400: `Invalid JSON payload`. -/
  | invalidJson
  /-- HTTP 400: `Invalid event structure`. -/
  | invalidStructure
  /-- An uncaught exception escaping the handler (surfaces as HTTP 500). -/
  | uncaughtError
deriving DecidableEq

/-- The inline HMAC check of `ingest_event` (main.py lines 206-211).  Note
the guard `if AUTH_SECRET:` — with no secret configured (or an empty one)
the check is skipped entirely and the stage succeeds. -/
def hmacStage (secret : Option String) (body : List ℕ) (signature : String) :
    Except IngErr Unit :=
  match secret with
  | none => Except.ok ()
  | some s =>
    if s = "" then Except.ok ()
    else
      match compareDigest (hmacSha256Hex (strBytes s) body) signature with
      | Except.error _ => Except.error IngErr.uncaughtError
      | Except.ok true => Except.ok ()
      | Except.ok false => Except.error IngErr.invalidSignatureHdr

/-- A validated `Metrics` document (main.py lines 107-109):
`temperature` in [-50, 200], `vibration` in [0, 100]. -/
structure Metrics where
  temperature : ℚ
  vibration : ℚ
deriving DecidableEq

/-- Pydantic `metrics.dict()`. -/
def Metrics.toJson (m : Metrics) : Json :=
  Json.obj [("temperature", Json.num m.temperature), ("vibration", Json.num m.vibration)]

/-- A validated `IngestEvent` (main.py lines 111-114): required
`device_id` of 1-128 characters, `payload` dict defaulting to empty,
optional `metrics`. -/
structure IngestEventM where
  device_id : String
  payload : List (String × Json)
  metrics : Option Metrics

def validateMetrics (j : Json) : Except Unit Metrics :=
  match j with
  | Json.obj mf =>
    match lookupJ mf "temperature", lookupJ mf "vibration" with
    | some (Json.num t), some (Json.num v) =>
        if -50 ≤ t ∧ t ≤ 200 ∧ 0 ≤ v ∧ v ≤ 100 then Except.ok ⟨t, v⟩
        else Except.error ()
    | _, _ => Except.error ()
  | _ => Except.error ()

/-- Validation `IngestEvent(**payload)` of the parsed JSON document
(numeric JSON values are required where the schema declares floats; the
validation library's string-to-number coercion is not exercised by any
analysed path). -/
def validateIngest (doc : Json) : Except Unit IngestEventM :=
  match doc with
  | Json.obj fields =>
    match lookupJ fields "device_id" with
    | some (Json.str d) =>
      if 1 ≤ d.data.length ∧ d.data.length ≤ 128 then
        match (lookupJ fields "payload").getD (Json.obj []) with
        | Json.obj pl =>
          match (lookupJ fields "metrics").getD Json.null with
          | Json.null => Except.ok ⟨d, pl, none⟩
          | mj =>
            match validateMetrics mj with
            | Except.ok m => Except.ok ⟨d, pl, some m⟩
            | Except.error _ => Except.error ()
        | _ => Except.error ()
      else Except.error ()
    | _ => Except.error ()
  | _ => Except.error ()

/-- The payload persisted with the event (main.py line 223):
`evt.payload or {"metrics": evt.metrics.dict() if evt.metrics else {}}`. -/
def payloadToStore (evt : IngestEventM) : List (String × Json) :=
  match evt.payload with
  | [] => [("metrics", match evt.metrics with
                       | some m => m.toJson
                       | none => Json.obj [])]
  | p => p

/-- The broadcast document built from the persisted event
(main.py lines 228-233). -/
def event_data_of (id : ℕ) (device_id : String) (ts : String)
    (payload : List (String × Json)) : List (String × Json) :=
  [("id", Json.num id), ("device_id", Json.str device_id),
   ("timestamp", Json.str ts), ("payload", Json.obj payload)]

/-- The anomaly-detection extraction (main.py lines 238-241):
`metrics = event_data.get("payload", {}).get("metrics", {})`, then
`float(metrics.get("temperature", 0))` and the same for vibration.
`none` models any exception raised during extraction or coercion (a
non-dict `metrics` value, or a value `float()` rejects). -/
def anomalyValues (payload : List (String × Json)) : Option (PyNum × PyNum) :=
  match (lookupJ payload "metrics").getD (Json.obj []) with
  | Json.obj mf =>
    match pyFloat ((lookupJ mf "temperature").getD (Json.num 0)) with
    | none => none
    | some t =>
      match pyFloat ((lookupJ mf "vibration").getD (Json.num 0)) with
      | none => none
      | some v => some (t, v)
  | _ => none

/-- The anomaly threshold (main.py line 242):
`temp < 18 or temp > 25 or vib > 0.8`. -/
def anomalyFlag (t v : PyNum) : Bool :=
  pyLt t 18 || pyGt t 25 || pyGt v (4/5)

/-- Outcome of one `/ingest` call: the HTTP response, the persisted event
row (id, device_id, payload) if any, and the messages handed to
`manager.broadcast`. -/
structure IngestOutcome where
  response : Except IngErr ℕ
  persisted : Option (ℕ × String × Json)
  broadcasts : List (List (String × Json))

/-- The `/ingest` handler `ingest_event` (main.py lines 196-247), from the
rate-limit gate onward.  `rate_ok` is the result of `check_rate_limit`;
`parsed` is the result of `json.loads(body)` (`none` = parse failure);
`new_id` and `ts` are the identity and ISO timestamp assigned by the
database on insert. -/
def ingest_event (secret : Option String) (rate_ok : Bool) (body : List ℕ)
    (signature : String) (parsed : Option Json) (new_id : ℕ) (ts : String) :
    IngestOutcome :=
  if rate_ok = false then ⟨Except.error IngErr.rateLimited, none, []⟩
  else
    match hmacStage secret body signature with
    | Except.error e => ⟨Except.error e, none, []⟩
    | Except.ok _ =>
      match parsed with
      | none => ⟨Except.error IngErr.invalidJson, none, []⟩
      | some doc =>
        match validateIngest doc with
        | Except.error _ => ⟨Except.error IngErr.invalidStructure, none, []⟩
        | Except.ok evt =>
          let p := payloadToStore evt
          let ev := event_data_of new_id evt.device_id ts p
          let msgs :=
            match anomalyValues p with
            | none => [ev]
            | some (t, v) =>
              if anomalyFlag t v then [ev, ("type", Json.str "anomaly") :: ev]
              else [ev]
          ⟨Except.ok new_id, some (new_id, evt.device_id, Json.obj p), msgs⟩

/-! ## In-memory rate limiter (`check_rate_limit`, main.py lines 82-92) -/

/-- One rate-limit check for a single client key.  `W` is
`RATE_LIMIT_WINDOW`, `M` is `RATE_LIMIT_MAX`, `ts` the stored timestamp
list, `now` the current time.  Returns the accept decision and the list
written back to the store (on rejection the store entry is left as it
was; the handler then fails with HTTP 429). -/
def check_rate_limit (W : ℚ) (M : ℕ) (ts : List ℚ) (now : ℚ) : Bool × List ℚ :=
  let pruned := ts.filter (fun t => now - W ≤ t)
  if M ≤ pruned.length then (false, ts)
  else (true, pruned ++ [now])

/-- A sequence of checks for one client, oldest first: returns the accept
decisions and the final stored list. -/
def rlRun (W : ℚ) (M : ℕ) : List ℚ → List ℚ → List Bool × List ℚ
  | store, [] => ([], store)
  | store, t :: rest =>
    let r1 := check_rate_limit W M store t
    let r2 := rlRun W M r1.2 rest
    (r1.1 :: r2.1, r2.2)

/-! ## Real-time connection manager (`ConnectionManager`, main.py 119-163)

Messages are an arbitrary type; subscriber sessions are identified by
naturals.  Delivery to a live subscriber is modelled as succeeding (the
per-subscriber exception path of `_safe_broadcast` only prunes sockets the
transport already closed). -/

structure ConnectionManager (Msg : Type) where
  active_connections : List ℕ
  frontend_ready : Bool
  backlog : List Msg
  max_backlog : ℕ

/-- `connect` (main.py lines 127-130): accept and register the session. -/
def ConnectionManager.connect {Msg : Type} (m : ConnectionManager Msg) (ws : ℕ) :
    ConnectionManager Msg :=
  { m with active_connections := m.active_connections ++ [ws] }

/-- `disconnect` (main.py lines 132-136): drop the session if present;
if no connection remains, reset `frontend_ready`. -/
def ConnectionManager.disconnect {Msg : Type} (m : ConnectionManager Msg) (ws : ℕ) :
    ConnectionManager Msg :=
  let act := if ws ∈ m.active_connections then m.active_connections.erase ws
             else m.active_connections
  { m with active_connections := act,
           frontend_ready := if act = [] then false else m.frontend_ready }

/-- Python `l[-k:]` for `k = max_backlog` (`self._backlog[-self._max_backlog:]`,
main.py line 142): the last `k` entries, the whole list when `k = 0`. -/
def lastSlice {α : Type} (l : List α) (k : ℕ) : List α :=
  if k = 0 then l else l.drop (l.length - k)

/-- `mark_ready` (main.py lines 138-144): set `frontend_ready`; if the
backlog and the active set are both non-empty, deliver the retained
backlog entries in order; clear the backlog unconditionally.  Returns the
new state and the delivered messages (each sent to every subscriber). -/
def ConnectionManager.mark_ready {Msg : Type} (m : ConnectionManager Msg) :
    ConnectionManager Msg × List Msg :=
  let delivered := if !m.backlog.isEmpty && !m.active_connections.isEmpty then
                     lastSlice m.backlog m.max_backlog
                   else []
  ({ m with frontend_ready := true, backlog := [] }, delivered)

/-- `broadcast` (main.py lines 146-153): while the frontend is not ready,
buffer the message, evicting the oldest entry when the backlog is full;
otherwise deliver to all subscribers.  Returns the new state and the
messages delivered now. -/
def ConnectionManager.broadcast {Msg : Type} (m : ConnectionManager Msg) (msg : Msg) :
    ConnectionManager Msg × List Msg :=
  if m.frontend_ready = false then
    let bl := if m.max_backlog ≤ m.backlog.length then m.backlog.drop 1 else m.backlog
    ({ m with backlog := bl ++ [msg] }, [])
  else (m, [msg])

/-- Fold `broadcast` over a message sequence, oldest first. -/
def broadcast_fold {Msg : Type} (m : ConnectionManager Msg) (msgs : List Msg) :
    ConnectionManager Msg :=
  msgs.foldl (fun s msg => (s.broadcast msg).1) m

/-! ## Event listing (`list_events`, main.py lines 252-258) -/

/-- A persisted `events` row (models.py lines 5-10). -/
structure EventRow where
  id : ℕ
  device_id : String
  timestamp : ℚ
  payload : Json

/-- `list_events`: query ordered by timestamp descending, capped at
`limit`, then returned reversed (ascending). -/
def list_events (store : List EventRow) (limit : ℕ) : List EventRow :=
  (((store.mergeSort (fun a b => decide (b.timestamp ≤ a.timestamp))).take limit)).reverse

/-! ## Theorems -/

/-- A sample raw body (the bytes of a small JSON object) together with its
parse, used for concrete ingestion runs. -/
def sampleBody : List ℕ := [123] ++ strBytes "\"device_id\": \"d\"" ++ [125]

def sampleDoc : Json := Json.obj [("device_id", Json.str "d")]

/-- Suffix of `l` of length at most `k` (the retained backlog window). -/
def dropFit {α : Type} (k : ℕ) (l : List α) : List α := l.drop (l.length - k)

/-- Replace the character at index `i` of a string. -/
def setChar (s : String) (i : ℕ) (c : Char) : String := ⟨s.data.set i c⟩

/-- C1: the claim asserts ingestion fails closed (HTTP 500) whenever no
HMAC secret is configured.  In fact the `/ingest` handler guards its
inline HMAC check with `if AUTH_SECRET:` and therefore skips verification
entirely when the secret is unset: this run with `secret = none` is
accepted and persists an event, refuting the claim. -/
theorem hmac_unset_ingest_succeeds :
    (ingest_event none true sampleBody "any-signature" (some sampleDoc) 7 "2025-01-01T00:00:00Z").response
        = Except.ok 7 ∧
    (ingest_event none true sampleBody "any-signature" (some sampleDoc) 7 "2025-01-01T00:00:00Z").persisted
        = some (7, "d", Json.obj [("metrics", Json.obj [])]) := by
  constructor
  · with_unfolding_all rfl
  · with_unfolding_all rfl

/-- C1 (amended): when no HMAC secret is configured, the `/ingest`
handler skips signature verification — its inline HMAC stage succeeds for
every body and signature, and the whole handler behaves identically
whatever signature is presented.  The standalone `verify_hmac` dependency
of auth.py does fail closed with `ServerMisconfigured` (HTTP 500), but it
is not wired into the `/ingest` route. -/
theorem hmac_unset_fails_open (body : List ℕ) (sig : String) (rate_ok : Bool)
    (parsed : Option Json) (new_id : ℕ) (ts : String) :
    hmacStage none body sig = Except.ok () ∧
    verify_hmac none (some sig) body = Except.error AuthErr.serverMisconfigured ∧
    ingest_event none rate_ok body sig parsed new_id ts
      = ingest_event none rate_ok body "" parsed new_id ts := by
  exact ⟨rfl, rfl, rfl⟩

/-- C7: `mark_ready` always sets `frontend_ready` and leaves an empty
backlog; the retained backlog window is delivered only when the backlog
is non-empty and at least one connection is active, and in particular a
`mark_ready` with zero active connections (or an empty backlog) clears
the backlog without delivering anything. -/
theorem mark_ready_clears_and_gates_delivery {Msg : Type} (m : ConnectionManager Msg) :
    (m.mark_ready).1.frontend_ready = true ∧
    (m.mark_ready).1.backlog = [] ∧
    (m.backlog ≠ [] → m.active_connections ≠ [] →
      (m.mark_ready).2 = lastSlice m.backlog m.max_backlog) ∧
    (m.active_connections = [] → (m.mark_ready).2 = []) ∧
    (m.backlog = [] → (m.mark_ready).2 = []) := by
  refine ⟨rfl, rfl, ?_, ?_, ?_⟩
  · intro hb ha
    simp only [ConnectionManager.mark_ready]
    rw [if_pos]
    simp [List.isEmpty_iff, hb, ha]
  · intro ha
    simp only [ConnectionManager.mark_ready]
    rw [if_neg]
    simp [List.isEmpty_iff, ha]
  · intro hb
    simp only [ConnectionManager.mark_ready]
    rw [if_neg]
    simp [List.isEmpty_iff, hb]

/-- C7 witness: a ready signal with backlog `[5]` and no active
connection clears the backlog and delivers nothing. -/
theorem mark_ready_clears_and_gates_delivery_witness :
    ((⟨[], false, [5], 500⟩ : ConnectionManager ℕ).mark_ready).1.frontend_ready = true ∧
    ((⟨[], false, [5], 500⟩ : ConnectionManager ℕ).mark_ready).1.backlog = [] ∧
    ((⟨[], false, [5], 500⟩ : ConnectionManager ℕ).mark_ready).2 = [] :=
  ⟨(mark_ready_clears_and_gates_delivery _).1,
   (mark_ready_clears_and_gates_delivery _).2.1,
   (mark_ready_clears_and_gates_delivery _).2.2.2.1 rfl⟩

/-- C8: once a disconnect leaves the active set empty, `frontend_ready`
is false; a fresh `connect` does not change readiness; and every message
broadcast while not ready is appended to the backlog and delivered to
nobody, with readiness still false afterwards (only `mark_ready` sets
it). -/
theorem ready_reset_and_buffering {Msg : Type} (m : ConnectionManager Msg)
    (ws v : ℕ) (msg : Msg) :
    ((m.disconnect ws).active_connections = [] → (m.disconnect ws).frontend_ready = false) ∧
    ((m.connect v).frontend_ready = m.frontend_ready) ∧
    (m.frontend_ready = false →
      (m.broadcast msg).2 = [] ∧
      (m.broadcast msg).1.frontend_ready = false ∧
      (m.broadcast msg).1.backlog =
        (if m.max_backlog ≤ m.backlog.length then m.backlog.drop 1 else m.backlog) ++ [msg]) := by
  refine ⟨?_, rfl, ?_⟩
  · intro h
    simp only [ConnectionManager.disconnect] at h ⊢
    rw [if_pos h]
  · intro h
    simp [ConnectionManager.broadcast, h]

/-- C8 witness: after the only connection (7) disconnects from a ready
manager, readiness is false, and a subsequent broadcast of message 9
buffers it without delivering. -/
theorem ready_reset_and_buffering_witness :
    ((⟨[7], true, [], 500⟩ : ConnectionManager ℕ).disconnect 7).frontend_ready = false ∧
    (((⟨[7], true, [], 500⟩ : ConnectionManager ℕ).disconnect 7).broadcast 9).2 = [] ∧
    (((⟨[7], true, [], 500⟩ : ConnectionManager ℕ).disconnect 7).broadcast 9).1.backlog = [9] := by
  have h1 := (ready_reset_and_buffering (⟨[7], true, [], 500⟩ : ConnectionManager ℕ) 7 0 9).1
    (by with_unfolding_all rfl)
  have h2 := (ready_reset_and_buffering
    ((⟨[7], true, [], 500⟩ : ConnectionManager ℕ).disconnect 7) 0 0 9).2.2 h1
  refine ⟨h1, h2.1, ?_⟩
  rw [h2.2.2]
  with_unfolding_all rfl

lemma broadcast_fold_state {Msg : Type} (msgs : List Msg) (m : ConnectionManager Msg)
    (hready : m.frontend_ready = false) (hmax : 1 ≤ m.max_backlog)
    (hlen : m.backlog.length ≤ m.max_backlog) :
    (broadcast_fold m msgs).backlog = dropFit m.max_backlog (m.backlog ++ msgs) ∧
    (broadcast_fold m msgs).frontend_ready = false ∧
    (broadcast_fold m msgs).active_connections = m.active_connections ∧
    (broadcast_fold m msgs).max_backlog = m.max_backlog := by
  induction msgs generalizing m with
  | nil =>
    refine ⟨?_, hready, rfl, rfl⟩
    simp [broadcast_fold, dropFit, Nat.sub_eq_zero_of_le hlen]
  | cons msg rest ih =>
    have hstep : broadcast_fold m (msg :: rest) = broadcast_fold ((m.broadcast msg).1) rest := rfl
    have hb : (m.broadcast msg).1 =
        { m with backlog :=
            (if m.max_backlog ≤ m.backlog.length then m.backlog.drop 1 else m.backlog) ++ [msg] } := by
      simp [ConnectionManager.broadcast, hready]
    rw [hstep, hb]
    by_cases hc : m.max_backlog ≤ m.backlog.length
    · have heq : m.backlog.length = m.max_backlog := Nat.le_antisymm hlen hc
      have hpos : m.backlog ≠ [] := by
        intro hnil
        rw [hnil] at heq
        simp at heq
        omega
      have hlen2 : ((m.backlog.drop 1) ++ [msg]).length ≤ m.max_backlog := by
        simp [List.length_drop]
        omega
      rw [if_pos hc]
      have ihh := ih { m with backlog := m.backlog.drop 1 ++ [msg] } hready hmax hlen2
      refine ⟨?_, ihh.2.1, ihh.2.2.1, ihh.2.2.2⟩
      rw [ihh.1]
      show dropFit m.max_backlog ((m.backlog.drop 1 ++ [msg]) ++ rest)
        = dropFit m.max_backlog (m.backlog ++ msg :: rest)
      have hL : (m.backlog.drop 1 ++ [msg]) ++ rest = (m.backlog ++ msg :: rest).drop 1 := by
        rw [List.drop_append_of_le_length (by omega)]
        simp
      rw [hL]
      simp only [dropFit, List.drop_drop, List.length_drop, List.length_append,
        List.length_cons]
      congr 1
      omega
    · rw [if_neg hc]
      push_neg at hc
      have hlen2 : (m.backlog ++ [msg]).length ≤ m.max_backlog := by
        simp
        omega
      have ihh := ih { m with backlog := m.backlog ++ [msg] } hready hmax hlen2
      refine ⟨?_, ihh.2.1, ihh.2.2.1, ihh.2.2.2⟩
      rw [ihh.1]
      simp [dropFit]

/-- C6: starting from a not-yet-ready manager with an empty backlog and a
positive bound, (a) after any sequence of broadcasts the backlog holds at
most `max_backlog` messages, and (b) after broadcasting `max_backlog + 1`
messages the backlog is exactly the sequence minus its oldest entry, in
original order, and those are precisely the messages flushed when
readiness is signaled with at least one active connection. -/
theorem backlog_bound_and_eviction {Msg : Type} (m : ConnectionManager Msg)
    (hready : m.frontend_ready = false) (hinit : m.backlog = [])
    (hmax : 1 ≤ m.max_backlog) :
    (∀ msgs : List Msg, (broadcast_fold m msgs).backlog.length ≤ m.max_backlog) ∧
    (∀ msgs : List Msg, msgs.length = m.max_backlog + 1 →
      (broadcast_fold m msgs).backlog = msgs.drop 1 ∧
      (m.active_connections ≠ [] →
        ((broadcast_fold m msgs).mark_ready).2 = msgs.drop 1)) := by
  have key : ∀ msgs : List Msg, (broadcast_fold m msgs).backlog = dropFit m.max_backlog msgs ∧
      (broadcast_fold m msgs).frontend_ready = false ∧
      (broadcast_fold m msgs).active_connections = m.active_connections ∧
      (broadcast_fold m msgs).max_backlog = m.max_backlog := by
    intro msgs
    have h := broadcast_fold_state msgs m hready hmax (by rw [hinit]; simp)
    rw [hinit] at h
    simpa using h
  constructor
  · intro msgs
    rw [(key msgs).1]
    simp only [dropFit, List.length_drop]
    omega
  · intro msgs hcount
    have hdrop : dropFit m.max_backlog msgs = msgs.drop 1 := by
      simp only [dropFit, hcount]
      congr 1
      omega
    have hbl : (broadcast_fold m msgs).backlog = msgs.drop 1 := by
      rw [(key msgs).1, hdrop]
    refine ⟨hbl, ?_⟩
    intro hact
    have hblne : (broadcast_fold m msgs).backlog.isEmpty = false := by
      rw [hbl]
      have : (msgs.drop 1).length = m.max_backlog := by
        simp [List.length_drop, hcount]
      cases hd : msgs.drop 1 with
      | nil => rw [hd] at this; simp at this; omega
      | cons a l => simp
    have hactne : (broadcast_fold m msgs).active_connections.isEmpty = false := by
      rw [(key msgs).2.2.1]
      cases hA : m.active_connections with
      | nil => exact absurd hA hact
      | cons a l => simp
    simp only [ConnectionManager.mark_ready, hblne, hactne]
    simp only [Bool.not_false, Bool.and_self, if_pos]
    rw [hbl, (key msgs).2.2.2]
    show lastSlice (msgs.drop 1) m.max_backlog = msgs.drop 1
    have hmne : m.max_backlog ≠ 0 := by omega
    simp only [lastSlice, if_neg hmne]
    have : (msgs.drop 1).length - m.max_backlog = 0 := by
      simp [List.length_drop, hcount]
    rw [this]
    simp

/-- C6 witness: broadcasting the 501 messages `0, …, 500` into a fresh
manager with bound 500 and one active connection retains `1, …, 500`,
and a readiness signal flushes exactly those in order. -/
theorem backlog_bound_and_eviction_witness :
    (broadcast_fold (⟨[1], false, [], 500⟩ : ConnectionManager ℕ) (List.range 501)).backlog
        = (List.range 501).drop 1 ∧
    ((broadcast_fold (⟨[1], false, [], 500⟩ : ConnectionManager ℕ)
        (List.range 501)).mark_ready).2 = (List.range 501).drop 1 := by
  have h := (backlog_bound_and_eviction (⟨[1], false, [], 500⟩ : ConnectionManager ℕ)
    rfl rfl (by norm_num)).2 (List.range 501) (by simp)
  exact ⟨h.1, h.2 (by simp)⟩

lemma rlRun_all_accept (W : ℚ) (M : ℕ) :
    ∀ (times store : List ℚ),
      store.length + times.length ≤ M →
      (∀ t ∈ times, ∀ s ∈ store, t - W ≤ s) →
      times.Pairwise (fun a b => b - W ≤ a) →
      rlRun W M store times = (List.replicate times.length true, store ++ times) := by
  intro times
  induction times with
  | nil =>
    intro store _ _ _
    simp [rlRun]
  | cons t rest ih =>
    intro store hlen hwin hpw
    have hkeep : store.filter (fun s => decide (t - W ≤ s)) = store := by
      rw [List.filter_eq_self]
      intro s hs
      exact decide_eq_true (hwin t (List.mem_cons_self t rest) s hs)
    have hlt : store.length < M := by
      simp [List.length_cons] at hlen
      omega
    have hstep : check_rate_limit W M store t = (true, store ++ [t]) := by
      simp only [check_rate_limit, hkeep]
      rw [if_neg (by omega)]
    have hpw2 := (List.pairwise_cons.mp hpw)
    have ihr := ih (store ++ [t]) (by simp at hlen ⊢; omega) ?_ hpw2.2
    · simp only [rlRun, hstep, ihr]
      simp [List.append_assoc, List.replicate_succ]
    · intro u hu s hs
      rcases List.mem_append.mp hs with h | h
      · exact hwin u (List.mem_cons_of_mem t hu) s h
      · rw [List.mem_singleton.mp h]
        exact hpw2.1 u hu

/-- C5: one rate-limit check computes the pruned in-window timestamp
list; if the pruned count has reached the maximum the request is rejected
and the stored list is untouched (the attempt is not recorded), otherwise
`now` is appended to the pruned list and the request accepted.
Consequently, starting from an empty store, `M` requests inside one
window all succeed, request `M + 1` inside the same window is rejected
(HTTP 429), and a later request past the window succeeds again. -/
theorem rate_limit_window_boundary (W : ℚ) (M : ℕ) (hM : 1 ≤ M)
    (ts : List ℚ) (tR tL : ℚ)
    (hlen : ts.length = M)
    (hwin : (ts ++ [tR]).Pairwise (fun a b => b - W ≤ a))
    (hlate : ∀ s ∈ ts, s < tL - W) :
    (∀ (store : List ℚ) (now : ℚ),
      (M ≤ (store.filter (fun t => decide (now - W ≤ t))).length →
        check_rate_limit W M store now = (false, store)) ∧
      ((store.filter (fun t => decide (now - W ≤ t))).length < M →
        check_rate_limit W M store now =
          (true, store.filter (fun t => decide (now - W ≤ t)) ++ [now]))) ∧
    rlRun W M [] ts = (List.replicate M true, ts) ∧
    check_rate_limit W M ts tR = (false, ts) ∧
    check_rate_limit W M ts tL = (true, [tL]) := by
  have hsplit := List.pairwise_append.mp hwin
  refine ⟨?_, ?_, ?_, ?_⟩
  · intro store now
    constructor
    · intro h
      simp only [check_rate_limit]
      rw [if_pos h]
    · intro h
      simp only [check_rate_limit]
      rw [if_neg (by omega)]
  · have h := rlRun_all_accept W M ts []
      (by simp [hlen]) (by intro t _ s hs; simp at hs) hsplit.1
    simpa [hlen] using h
  · have hkeep : ts.filter (fun t => decide (tR - W ≤ t)) = ts := by
      rw [List.filter_eq_self]
      intro s hs
      exact decide_eq_true (hsplit.2.2 s hs tR (List.mem_singleton_self tR))
    simp only [check_rate_limit, hkeep]
    rw [if_pos (by omega)]
  · have hdrop : ts.filter (fun t => decide (tL - W ≤ t)) = [] := by
      rw [List.filter_eq_nil_iff]
      intro s hs
      simp only [decide_eq_true_eq]
      push_neg
      exact hlate s hs
    simp only [check_rate_limit, hdrop]
    rw [if_neg (by simp; omega)]
    simp

/-- C5 witness: with window 60 and maximum 3, the requests at times
0, 1, 2 all succeed, a fourth request at time 2 in the same window is
rejected without changing the store, and a request at time 100, past the
window, succeeds with a fresh store. -/
theorem rate_limit_window_boundary_witness :
    rlRun 60 3 [] [0, 1, 2] = (List.replicate 3 true, [0, 1, 2]) ∧
    check_rate_limit 60 3 [0, 1, 2] 2 = (false, [0, 1, 2]) ∧
    check_rate_limit 60 3 [0, 1, 2] 100 = (true, [100]) := by
  have h := rate_limit_window_boundary 60 3 (by norm_num) [0, 1, 2] 2 100
    rfl
    (of_decide_eq_true (by with_unfolding_all rfl))
    (of_decide_eq_true (by with_unfolding_all rfl))
  exact ⟨h.2.1, h.2.2.1, h.2.2.2⟩

/-- C9: with `limit` at most the number of persisted events, `list_events`
returns exactly `limit` entries, arranged in ascending timestamp order,
and they are a most-recent selection: the remaining events (those not
returned) all have timestamps at most every returned timestamp. -/
theorem list_events_order_and_cap (store : List EventRow) (limit : ℕ)
    (hlim : limit ≤ store.length) :
    (list_events store limit).length = limit ∧
    (list_events store limit).Pairwise (fun a b => a.timestamp ≤ b.timestamp) ∧
    ∃ rest : List EventRow,
      ((list_events store limit).reverse ++ rest).Perm store ∧
      ∀ a ∈ rest, ∀ b ∈ list_events store limit, a.timestamp ≤ b.timestamp := by
  have htrans : ∀ a b c : EventRow,
      (fun a b : EventRow => decide (b.timestamp ≤ a.timestamp)) a b →
      (fun a b : EventRow => decide (b.timestamp ≤ a.timestamp)) b c →
      (fun a b : EventRow => decide (b.timestamp ≤ a.timestamp)) a c := by
    intro a b c hab hbc
    simp only [decide_eq_true_eq] at hab hbc ⊢
    exact le_trans hbc hab
  have htotal : ∀ a b : EventRow,
      ((fun a b : EventRow => decide (b.timestamp ≤ a.timestamp)) a b ||
       (fun a b : EventRow => decide (b.timestamp ≤ a.timestamp)) b a) = true := by
    intro a b
    simp only [Bool.or_eq_true, decide_eq_true_eq]
    exact le_total b.timestamp a.timestamp
  have hsorted := @List.sorted_mergeSort _
    (fun a b : EventRow => decide (b.timestamp ≤ a.timestamp)) htrans htotal store
  have hperm := List.mergeSort_perm store
    (fun a b : EventRow => decide (b.timestamp ≤ a.timestamp))
  set s := store.mergeSort (fun a b : EventRow => decide (b.timestamp ≤ a.timestamp)) with hs
  have hslen : s.length = store.length := hperm.length_eq
  have hdesc : s.Pairwise (fun a b => b.timestamp ≤ a.timestamp) := by
    refine hsorted.imp ?_
    intro a b h
    simpa using h
  refine ⟨?_, ?_, ?_⟩
  · simp only [list_events, ← hs, List.length_reverse, List.length_take, hslen]
    omega
  · have htake : (s.take limit).Pairwise (fun a b => b.timestamp ≤ a.timestamp) :=
      hdesc.sublist (List.take_sublist limit s)
    simp only [list_events, ← hs]
    rw [List.pairwise_reverse]
    exact htake
  · refine ⟨s.drop limit, ?_, ?_⟩
    · simp only [list_events, ← hs, List.reverse_reverse]
      rw [List.take_append_drop]
      exact hperm
    · intro a ha b hb
      have hsplit : s.Pairwise (fun a b => b.timestamp ≤ a.timestamp) := hdesc
      rw [← List.take_append_drop limit s] at hsplit
      have := (List.pairwise_append.mp hsplit).2.2
      have hbmem : b ∈ s.take limit := by
        simp only [list_events, ← hs, List.mem_reverse] at hb
        exact hb
      exact this b hbmem a ha

/-- C9 witness: from three events with timestamps 5, 1, 3 and limit 2,
the listing returns the two most recent (timestamps 3 and 5) in
ascending order. -/
theorem list_events_order_and_cap_witness :
    (list_events [⟨1, "a", 5, Json.null⟩, ⟨2, "b", 1, Json.null⟩, ⟨3, "c", 3, Json.null⟩] 2).length = 2 ∧
    (list_events [⟨1, "a", 5, Json.null⟩, ⟨2, "b", 1, Json.null⟩, ⟨3, "c", 3, Json.null⟩] 2).Pairwise
      (fun a b => a.timestamp ≤ b.timestamp) :=
  have h := list_events_order_and_cap
    [⟨1, "a", 5, Json.null⟩, ⟨2, "b", 1, Json.null⟩, ⟨3, "c", 3, Json.null⟩] 2 (by norm_num)
  ⟨h.1, h.2.1⟩

/-- C3 counterexample: an accepted request supplying neither a payload
nor metrics.  The claim says an empty document is stored; the code stores
`evt.payload or ⟨metrics ↦ (metrics.dict() if metrics else ⟨⟩)⟩`, which
for this request is the one-field document mapping `metrics` to an empty
document — not the empty document. -/
theorem ingest_payload_empty_not_empty_doc :
    (ingest_event none true sampleBody "" (some (Json.obj [("device_id", Json.str "d")])) 1 "t").persisted
      = some (1, "d", Json.obj [("metrics", Json.obj [])]) ∧
    Json.obj [("metrics", Json.obj [])] ≠ Json.obj [] := by
  constructor
  · with_unfolding_all rfl
  · simp

/-- C3 (amended): for every accepted ingestion, the persisted payload is
the caller-supplied payload when non-empty; otherwise the document
mapping `metrics` to the validated metrics document when metrics was
supplied; otherwise the document mapping `metrics` to an empty document
(not the empty document the claim states). -/
theorem ingest_payload_construction (secret : Option String) (body : List ℕ)
    (sig : String) (doc : Json) (evt : IngestEventM) (new_id : ℕ) (ts : String)
    (hh : hmacStage secret body sig = Except.ok ())
    (hv : validateIngest doc = Except.ok evt) :
    (ingest_event secret true body sig (some doc) new_id ts).persisted
        = some (new_id, evt.device_id, Json.obj (payloadToStore evt)) ∧
    (evt.payload ≠ [] → payloadToStore evt = evt.payload) ∧
    (∀ m, evt.payload = [] → evt.metrics = some m →
        payloadToStore evt = [("metrics", m.toJson)]) ∧
    (evt.payload = [] → evt.metrics = none →
        payloadToStore evt = [("metrics", Json.obj [])]) := by
  refine ⟨?_, ?_, ?_, ?_⟩
  · simp [ingest_event, hh, hv]
  · intro h
    unfold payloadToStore
    cases hp : evt.payload with
    | nil => exact absurd hp h
    | cons a l => rfl
  · intro m hp hm
    unfold payloadToStore
    rw [hp, hm]
  · intro hp hm
    unfold payloadToStore
    rw [hp, hm]

/-- C3 witness: the request with device id `d` and nothing else is
accepted and persists the payload `⟨metrics ↦ ⟨⟩⟩`. -/
theorem ingest_payload_construction_witness :
    (ingest_event none true [] "" (some (Json.obj [("device_id", Json.str "d")])) 5 "t").persisted
      = some (5, "d", Json.obj (payloadToStore ⟨"d", [], none⟩)) ∧
    payloadToStore (⟨"d", [], none⟩ : IngestEventM) = [("metrics", Json.obj [])] :=
  have h := ingest_payload_construction none [] "" (Json.obj [("device_id", Json.str "d")])
    ⟨"d", [], none⟩ 5 "t" rfl (by with_unfolding_all rfl)
  ⟨h.1, h.2.2.2 rfl rfl⟩

/-- C4: for every accepted ingestion the request itself succeeds, and the
broadcast trace is: exactly the plain event message plus one extra
message — the event data with an added `type: anomaly` field — when the
extracted temperature is below 18 or above 25 or the extracted vibration
exceeds 0.8 (the `anomalyFlag` threshold over Python float comparisons,
which for finite values is exactly `t < 18 ∨ t > 25 ∨ v > 0.8`); exactly
the plain event message when the extracted values are in range; and
exactly the plain event message (no anomaly, no failure) when the
numeric extraction fails.  A missing metrics entry makes both extracted
values default to 0. -/
theorem ingest_anomaly_broadcast_count (secret : Option String) (body : List ℕ)
    (sig : String) (doc : Json) (evt : IngestEventM) (new_id : ℕ) (ts : String)
    (hh : hmacStage secret body sig = Except.ok ())
    (hv : validateIngest doc = Except.ok evt) :
    (ingest_event secret true body sig (some doc) new_id ts).response = Except.ok new_id ∧
    (∀ t v, anomalyValues (payloadToStore evt) = some (t, v) →
      (anomalyFlag t v = true →
        (ingest_event secret true body sig (some doc) new_id ts).broadcasts =
          [event_data_of new_id evt.device_id ts (payloadToStore evt),
           ("type", Json.str "anomaly") ::
             event_data_of new_id evt.device_id ts (payloadToStore evt)]) ∧
      (anomalyFlag t v = false →
        (ingest_event secret true body sig (some doc) new_id ts).broadcasts =
          [event_data_of new_id evt.device_id ts (payloadToStore evt)])) ∧
    (anomalyValues (payloadToStore evt) = none →
      (ingest_event secret true body sig (some doc) new_id ts).broadcasts =
        [event_data_of new_id evt.device_id ts (payloadToStore evt)]) ∧
    (lookupJ (payloadToStore evt) "metrics" = none →
      anomalyValues (payloadToStore evt) = some (PyNum.fin 0, PyNum.fin 0)) ∧
    (∀ q r : ℚ, anomalyFlag (PyNum.fin q) (PyNum.fin r) = true ↔
      (q < 18 ∨ 25 < q ∨ 4/5 < r)) := by
  refine ⟨?_, ?_, ?_, ?_, ?_⟩
  · simp [ingest_event, hh, hv]
  · intro t v ha
    constructor
    · intro hflag
      simp [ingest_event, hh, hv, ha, hflag]
    · intro hflag
      simp [ingest_event, hh, hv, ha, hflag]
  · intro ha
    simp [ingest_event, hh, hv, ha]
  · intro hm
    unfold anomalyValues
    rw [hm]
    rfl
  · intro q r
    simp [anomalyFlag, pyLt, pyGt, or_assoc]

/-- C4 witness: a request with temperature 30 (outside the band) produces
the plain message and the anomaly-tagged message, and one with
temperature 20, vibration 0.1 produces only the plain message. -/
theorem ingest_anomaly_broadcast_count_witness :
    (ingest_event none true [] "" (some (Json.obj [("device_id", Json.str "d"),
        ("metrics", Json.obj [("temperature", Json.num 30), ("vibration", Json.num 0)])])) 1 "t").broadcasts =
      [event_data_of 1 "d" "t" [("metrics", Json.obj [("temperature", Json.num 30), ("vibration", Json.num 0)])],
       ("type", Json.str "anomaly") ::
         event_data_of 1 "d" "t"
           [("metrics", Json.obj [("temperature", Json.num 30), ("vibration", Json.num 0)])]] := by
  have h := (ingest_anomaly_broadcast_count none [] ""
    (Json.obj [("device_id", Json.str "d"),
      ("metrics", Json.obj [("temperature", Json.num 30), ("vibration", Json.num 0)])])
    ⟨"d", [], some ⟨30, 0⟩⟩ 1 "t" rfl (by with_unfolding_all rfl)).2.1
    (PyNum.fin 30) (PyNum.fin 0) (by with_unfolding_all rfl)
  have h2 := (h.1 (by with_unfolding_all rfl))
  simpa [payloadToStore, Metrics.toJson] using h2

/-- C10 counterexample: an accepted request whose stored payload maps
`metrics` to `null` — so it contains no numeric temperature at all — is
broadcast exactly once, with no anomaly message: the extraction
`metrics.get(...)` raises on the non-dict value and the failure is
swallowed, contradicting the claim that an anomaly message is always
produced for such events. -/
theorem nonnumeric_metrics_no_anomaly :
    (ingest_event none true [] "" (some (Json.obj [("device_id", Json.str "d"),
        ("payload", Json.obj [("metrics", Json.null)])])) 2 "t").broadcasts =
      [event_data_of 2 "d" "t" [("metrics", Json.null)]] ∧
    (ingest_event none true [] "" (some (Json.obj [("device_id", Json.str "d"),
        ("payload", Json.obj [("metrics", Json.null)])])) 2 "t").broadcasts.length = 1 := by
  constructor
  · with_unfolding_all rfl
  · with_unfolding_all rfl

/-- C10 (amended): for every accepted ingestion whose stored payload has
no `metrics` entry, or whose `metrics` entry is a document with no
`temperature` entry and a vibration entry (if any) that coerces to a
number, the temperature defaults to 0, which satisfies `0 < 18`, so the
anomaly message is always produced.  (When the extraction fails instead —
e.g. a non-document `metrics` value or a non-numeric temperature — no
anomaly message is produced.) -/
theorem default_zero_anomaly (secret : Option String) (body : List ℕ)
    (sig : String) (doc : Json) (evt : IngestEventM) (new_id : ℕ) (ts : String)
    (hh : hmacStage secret body sig = Except.ok ())
    (hv : validateIngest doc = Except.ok evt)
    (hm : lookupJ (payloadToStore evt) "metrics" = none ∨
      ∃ mf, lookupJ (payloadToStore evt) "metrics" = some (Json.obj mf) ∧
        lookupJ mf "temperature" = none ∧
        ∃ v, pyFloat ((lookupJ mf "vibration").getD (Json.num 0)) = some v) :
    (ingest_event secret true body sig (some doc) new_id ts).broadcasts =
      [event_data_of new_id evt.device_id ts (payloadToStore evt),
       ("type", Json.str "anomaly") ::
         event_data_of new_id evt.device_id ts (payloadToStore evt)] := by
  have hzero : ∃ v : PyNum, anomalyValues (payloadToStore evt) = some (PyNum.fin 0, v) := by
    rcases hm with hnone | ⟨mf, hmf, htemp, v, hvib⟩
    · refine ⟨PyNum.fin 0, ?_⟩
      unfold anomalyValues
      rw [hnone]
      rfl
    · refine ⟨v, ?_⟩
      unfold anomalyValues
      rw [hmf]
      simp only [pyFloat] at hvib
      simp only [Option.getD_some, htemp, Option.getD_none, pyFloat, hvib]
  rcases hzero with ⟨v, ha⟩
  have hflag : anomalyFlag (PyNum.fin 0) v = true := by
    have h18 : pyLt (PyNum.fin 0) 18 = true := by
      simp only [pyLt, decide_eq_true_eq]
      norm_num
    simp [anomalyFlag, h18]
  simp [ingest_event, hh, hv, ha, hflag]

/-- C10 (amended) witness: a request supplying neither payload nor
metrics stores `⟨metrics ↦ ⟨⟩⟩`; both metric fields default to 0 and the
anomaly message is produced. -/
theorem default_zero_anomaly_witness :
    (ingest_event none true [] "" (some (Json.obj [("device_id", Json.str "d")])) 4 "t").broadcasts =
      [event_data_of 4 "d" "t" (payloadToStore ⟨"d", [], none⟩),
       ("type", Json.str "anomaly") :: event_data_of 4 "d" "t" (payloadToStore ⟨"d", [], none⟩)] :=
  default_zero_anomaly none [] "" (Json.obj [("device_id", Json.str "d")])
    ⟨"d", [], none⟩ 4 "t" rfl (by with_unfolding_all rfl)
    (Or.inr ⟨[], rfl, rfl, ⟨PyNum.fin 0, rfl⟩⟩)

lemma hexChar_ascii (n : ℕ) : (hexChar n).toNat < 128 := by
  unfold hexChar
  have h : n % 16 < 16 := Nat.mod_lt _ (by norm_num)
  set r := n % 16 with hr
  interval_cases r <;> decide

lemma mem_wordHex_ascii (w : ℕ) (c : Char) (hc : c ∈ wordHex w) : c.toNat < 128 := by
  simp only [wordHex, List.mem_cons, List.not_mem_nil, or_false] at hc
  rcases hc with h | h | h | h | h | h | h | h <;> (subst h; exact hexChar_ascii _)

lemma sha256Hex_ascii (msg : List ℕ) : isAsciiStr (sha256Hex msg) = true := by
  simp only [isAsciiStr, sha256Hex, List.all_eq_true]
  intro c hc
  simp only [List.mem_flatten, List.mem_map] at hc
  rcases hc with ⟨l, ⟨w, _, rfl⟩, hcl⟩
  exact decide_eq_true (mem_wordHex_ascii w c hcl)

lemma hmacSha256Hex_ascii (key msg : List ℕ) : isAsciiStr (hmacSha256Hex key msg) = true :=
  sha256Hex_ascii _

lemma setChar_ascii (s : String) (i : ℕ) (c : Char) (hs : isAsciiStr s = true)
    (hc : c.toNat < 128) : isAsciiStr (setChar s i c) = true := by
  simp only [isAsciiStr, setChar, List.all_eq_true] at hs ⊢
  intro x hx
  rcases List.mem_or_eq_of_mem_set hx with h | h
  · exact hs x h
  · subst h
    exact decide_eq_true hc

lemma hmacStage_eq_cases (secret : String) (hsec : secret ≠ "") (body : List ℕ)
    (sig : String) :
    hmacStage (some secret) body sig =
      match compareDigest (hmacSha256Hex (strBytes secret) body) sig with
      | Except.error _ => Except.error IngErr.uncaughtError
      | Except.ok true => Except.ok ()
      | Except.ok false => Except.error IngErr.invalidSignatureHdr := by
  simp [hmacStage, hsec]

lemma compareDigest_self (E : String) (hE : isAsciiStr E = true) :
    compareDigest E E = Except.ok true := by
  simp [compareDigest, hE]

lemma compareDigest_setChar_ascii (E : String) (i : ℕ) (c : Char)
    (hE : isAsciiStr E = true) (hi : i < E.data.length)
    (hc : c ≠ E.data.getD i '0') (ha : c.toNat < 128) :
    compareDigest E (setChar E i c) = Except.ok false := by
  have hset : isAsciiStr (setChar E i c) = true := setChar_ascii _ _ _ hE ha
  have hi2 : i < (E.data.set i c).length := by simpa using hi
  have hne : (E == setChar E i c) = false := by
    rw [beq_eq_false_iff_ne]
    intro h
    apply hc
    have hdata : E.data = E.data.set i c := congrArg String.data h
    have hself := List.getElem_set_self (l := E.data) (i := i) (a := c) hi2
    have h1 : E.data[i]? = some c := by
      rw [hdata, List.getElem?_eq_getElem hi2, hself]
    simp [List.getD_eq_getElem?_getD, h1]
  simp [compareDigest, hE, hset, hne]

lemma compareDigest_setChar_nonascii (E : String) (i : ℕ) (c : Char)
    (hi : i < E.data.length) (hge : 128 ≤ c.toNat) :
    compareDigest E (setChar E i c) = Except.error () := by
  have hi2 : i < (E.data.set i c).length := by simpa using hi
  have hmem : c ∈ E.data.set i c := by
    have hself := List.getElem_set_self (l := E.data) (i := i) (a := c) hi2
    have h2 := List.getElem_mem hi2
    rwa [hself] at h2
  have hset : isAsciiStr (setChar E i c) = false := by
    simp only [isAsciiStr, setChar, List.all_eq_false]
    exact ⟨c, hmem, by simp; omega⟩
  simp [compareDigest, hset]

/-- C2 (amended): for every configured (non-empty) secret and every body,
presenting the lowercase hex HMAC-SHA256 digest as the signature makes
the `/ingest` HMAC check succeed; changing any single character of that
hex string to a different ASCII character makes the check fail with
`Unauthorized` (HTTP 401); changing a character to a non-ASCII character
instead makes the constant-time comparison raise an uncaught `TypeError`,
surfacing as a server error (HTTP 500), not as 401. -/
theorem hmac_roundtrip_ascii_flip (secret : String) (body : List ℕ) (hsec : secret ≠ "") :
    hmacStage (some secret) body (hmacSha256Hex (strBytes secret) body) = Except.ok () ∧
    (∀ i c, i < (hmacSha256Hex (strBytes secret) body).data.length →
      c ≠ (hmacSha256Hex (strBytes secret) body).data.getD i '0' →
      c.toNat < 128 →
      hmacStage (some secret) body (setChar (hmacSha256Hex (strBytes secret) body) i c)
        = Except.error IngErr.invalidSignatureHdr) ∧
    (∀ i c, i < (hmacSha256Hex (strBytes secret) body).data.length →
      128 ≤ c.toNat →
      hmacStage (some secret) body (setChar (hmacSha256Hex (strBytes secret) body) i c)
        = Except.error IngErr.uncaughtError) := by
  have hE : isAsciiStr (hmacSha256Hex (strBytes secret) body) = true := hmacSha256Hex_ascii _ _
  refine ⟨?_, ?_, ?_⟩
  · rw [hmacStage_eq_cases secret hsec, compareDigest_self _ hE]
  · intro i c hi hc ha
    rw [hmacStage_eq_cases secret hsec, compareDigest_setChar_ascii _ _ _ hE hi hc ha]
  · intro i c hi hge
    rw [hmacStage_eq_cases secret hsec, compareDigest_setChar_nonascii _ _ _ hi hge]

set_option maxRecDepth 16000 in
set_option maxHeartbeats 2000000 in
/-- C2 witness: for secret `k` and the empty body, the correct digest
verifies, and replacing its first character (`8`) by the ASCII character
`0` is rejected with 401. -/
theorem hmac_roundtrip_ascii_flip_witness :
    hmacStage (some "k") [] (hmacSha256Hex (strBytes "k") []) = Except.ok () ∧
    hmacStage (some "k") [] (setChar (hmacSha256Hex (strBytes "k") []) 0 '0')
      = Except.error IngErr.invalidSignatureHdr := by
  have h := hmac_roundtrip_ascii_flip "k" [] (by decide)
  refine ⟨h.1, h.2.1 0 '0' ?_ ?_ (by decide)⟩
  · exact of_decide_eq_true (by with_unfolding_all rfl)
  · exact of_decide_eq_true (by with_unfolding_all rfl)

set_option maxRecDepth 16000 in
set_option maxHeartbeats 2000000 in
/-- C2 counterexample: the claim allows changing the hex digest at any
character to any other character and asserts the outcome is always 401.
Changing the first character of the correct digest for secret `k`, empty
body, to the non-ASCII character é makes `hmac.compare_digest` raise an
uncaught `TypeError` (HTTP 500), not 401. -/
theorem hmac_flip_nonascii_uncaught :
    hmacStage (some "k") [] (setChar (hmacSha256Hex (strBytes "k") []) 0 'é')
      = Except.error IngErr.uncaughtError ∧
    (Except.error IngErr.uncaughtError : Except IngErr Unit)
      ≠ Except.error IngErr.invalidSignatureHdr := by
  constructor
  · with_unfolding_all rfl
  · simp

end IotDash
